import Mathlib

/-!
Verification of the read-sampling / statistics subsystem of svviz2
(`sample.py`): a shallow embedding of the region iterator, the sampling
scanner, the outlier trimmer, the orientation classifier, the
`ReadStatistics` aggregate with its gated queries and memoized insert-size
density scorer, and the pair scorer.

Modelling conventions:
* Python ints are `Int`/`Nat`; float statistics over sampled integers are
  modelled with `ℚ` (exact arithmetic) except for `log10`, modelled with
  `Real.logb 10`.
* Python exceptions (`IndexError` from popping an empty list, `KeyError`
  from rendering the `"unpaired"` tally key, `ZeroDivisionError`) are
  modelled with `Except PyErr`.
* External collaborators (the pysam alignment file, the stdlib seeded
  `random.Random(9535).shuffle`, and the external `kde.gaussian_kde`
  density model) are parameters: the bam is a list of per-region record
  lists, the shuffle is a permutation-valued function, and the density
  model is an abstract function built from the insert-size sample.
* Mutable caches (`_insertSizeKDE`, `_insertSizeScores`) are explicit
  state passing (`KDEState`), with an evaluation log recording each
  density-model evaluation.
-/

namespace Svviz

/-- Python exceptions that the sampling pass can raise. -/
inductive PyErr
| indexError
| keyError
| zeroDivisionError
deriving DecidableEq, Repr

/-- Keys of the orientation tally `collections.Counter`: the boolean pair
`(is_reverse, mate_is_reverse)` or the sentinel string key `"unpaired"`. -/
inductive OKey
| pair (r1 r2 : Bool)
| unpaired
deriving DecidableEq, Repr

/-- The orientation tally: a `collections.Counter`, i.e. an
insertion-ordered association list from key to count (Python 3.7+ dicts
preserve insertion order, which matters for tie-breaking in the stable
sort inside `chooseOrientation`). -/
abbrev Tally := List (OKey × Nat)

/-- `Counter.__getitem__`: count of a key, `0` when absent. -/
def tallyGet (t : Tally) (k : OKey) : Nat :=
  ((t.lookup k).getD 0)

/-- `Counter` increment `orientations[k] += 1`: bump an existing key in
place (keeping insertion order) or append a new key at the end. -/
def tallyInc (t : Tally) (k : OKey) : Tally :=
  if (t.lookup k).isSome then
    t.map (fun p => if p.1 = k then (p.1, p.2 + 1) else p)
  else
    t ++ [(k, 1)]

/-- The result of `chooseOrientation`: either the sentinel string `"any"`
or a list of rendered 2-character orientation strings. -/
inductive Orients
| any
| labels (ls : List String)
deriving DecidableEq, Repr

/-- `numpy.median` of a list of rationals: sort, then take the middle
element (odd length) or the average of the two middle elements (even
length).  For a list of length `n` this is the average of the entries at
indices `n / 2` and `(n - 1) / 2` of the sorted list, which coincide when
`n` is odd.  (Only ever applied to nonempty lists; the empty case is a
don't-care defaulting to 0.) -/
def median (data : List ℚ) : ℚ :=
  let s := List.insertionSort (fun a b : ℚ => a ≤ b) data
  (s.getD (s.length / 2) 0 + s.getD ((s.length - 1) / 2) 0) / 2

/-- `removeOutliers(data, m=10.)` from `sample.py`: median / MAD based
one-sided trimming.  When `mdev == 0` Python sets the z-score vector to
the scalar `0.` and `data[0. < m]` keeps every value (numpy boolean-scalar
indexing merely reshapes; value-wise all entries are retained) when
`0 < m`, and none otherwise. -/
def removeOutliers (data : List ℚ) (m : ℚ) : List ℚ :=
  if data.length < 2 then data
  else
    let med := median data
    let mdev := median (data.map (fun x => |x - med|))
    if mdev = 0 then (if 0 < m then data else [])
    else data.filter (fun x => decide ((x - med) / mdev < m))

/-- The `ReadStatistics` aggregate: the four sample sequences collected by
the sampling pass plus the discordant fraction.  `discordant_frac` is
`none` when construction failed (the Python attribute is then never
assigned).  The lazy density-model caches are modelled separately as
explicit state (`KDEState`). -/
structure ReadStatistics where
  insertSizes : List ℚ
  readLengths : List Nat
  orientations : Orients
  number_mismatches : List Int
  discordant_frac : Option ℚ
deriving DecidableEq, Repr

/-- `hasInsertSizeDistribution` on a raw sample list:
`len(insertSizes) > 1000`. -/
def hasInsertSizeDistributionL (l : List ℚ) : Bool :=
  if l.length > 1000 then true else false

/-- `ReadStatistics.hasInsertSizeDistribution`. -/
def hasInsertSizeDistribution (s : ReadStatistics) : Bool :=
  hasInsertSizeDistributionL s.insertSizes

/-- `ReadStatistics.meanInsertSize`: the arithmetic mean
(`numpy.mean`) when the gate is met, else the null sentinel `None`. -/
def meanInsertSize (s : ReadStatistics) : Option ℚ :=
  if hasInsertSizeDistribution s then
    some (s.insertSizes.sum / (s.insertSizes.length : ℚ))
  else none

/-- `ReadStatistics.maxInsertSize`: `numpy.max` when the gate is met
(cached in Python; caching a pure value is the identity here), else
`None`. -/
def maxInsertSize (s : ReadStatistics) : Option ℚ :=
  if hasInsertSizeDistribution s then s.insertSizes.max? else none

/-- `ReadStatistics.hasReadLengthDistribution`:
`len(readLengths) > 1000`. -/
def hasReadLengthDistribution (s : ReadStatistics) : Bool :=
  if s.readLengths.length > 1000 then true else false

/-- `ReadStatistics.meanReadLength`. -/
def meanReadLength (s : ReadStatistics) : Option ℚ :=
  if hasReadLengthDistribution s then
    some ((s.readLengths.map (fun n => (n : ℚ))).sum / (s.readLengths.length : ℚ))
  else none

/-! ## Orientation classifier (`chooseOrientation`) -/

/-- Keys ranked ascending by count:
`sorted(orientations, key=lambda x: orientations[x])`. Python's sort is
stable, so `insertionSort` with `≤` on counts produces the identical
list. -/
def rankedKeys (t : Tally) : List OKey :=
  List.insertionSort (fun a b => tallyGet t a ≤ tallyGet t b) (t.map Prod.fst)

/-- The `while len(ranked) > 0` pop loop of `chooseOrientation`: given the
previously chosen key `prev` and the remaining keys in descending order,
include each next-highest candidate while
`orientations[chosenOrientations[-1]] < 2 * orientations[candidate]`,
stopping at the first failure. -/
def chooseLoop (t : Tally) (prev : OKey) : List OKey → List OKey
  | [] => []
  | c :: cs =>
    if tallyGet t prev < 2 * tallyGet t c then c :: chooseLoop t c cs
    else []

/-- Rendering one chosen key: `"".join(d[x] for x in o)` with
`d = {False: "+", True: "-"}`.  Iterating over the string `"unpaired"`
looks up characters absent from `d`, raising `KeyError`. -/
def renderKey : OKey → Except PyErr String
  | OKey.pair r1 r2 =>
    Except.ok ((if r1 then "-" else "+") ++ (if r2 then "-" else "+"))
  | OKey.unpaired => Except.error PyErr.keyError

/-- Total variant of `renderKey` used to state what the successful path
returns (never applied to `unpaired` under the stated hypotheses). -/
def renderStr : OKey → String
  | OKey.pair r1 r2 => (if r1 then "-" else "+") ++ (if r2 then "-" else "+")
  | OKey.unpaired => ""

/-- The list comprehension
`["".join(d[x] for x in o) for o in chosenOrientations]`: left to right,
first `KeyError` wins. -/
def renderAll : List OKey → Except PyErr (List String)
  | [] => Except.ok []
  | k :: ks =>
    match renderKey k with
    | Except.error e => Except.error e
    | Except.ok s =>
      match renderAll ks with
      | Except.error e => Except.error e
      | Except.ok ss => Except.ok (s :: ss)

/-- `chooseOrientation(orientations)` from `sample.py`.  `ranked.pop()`
pops from the end of the ascending ranking, i.e. walks it in descending
order; popping from an empty ranking raises `IndexError`.  If the first
chosen key is `"unpaired"` the result collapses to `"any"`; otherwise the
chosen keys are rendered (which raises `KeyError` if `"unpaired"` was
chosen in a later position). -/
def chooseOrientation (t : Tally) : Except PyErr Orients :=
  match (rankedKeys t).reverse with
  | [] => Except.error PyErr.indexError
  | top :: rest =>
    if top = OKey.unpaired then Except.ok Orients.any
    else
      match renderAll (top :: chooseLoop t top rest) with
      | Except.error e => Except.error e
      | Except.ok ls => Except.ok (Orients.labels ls)

/-! ## Region iterator (`getSearchRegions`) -/

/-- A genomic region `(chrom, start, end)`; `(chrom, None, None)` is the
whole-chromosome fallback. -/
abbrev Region := String × Option Int × Option Int

/-- Python `range(start, stop, step)` for a positive `step`: the `i`-th
element is `start + step * i`, and the count is `⌈(stop - start)/step⌉`
clamped at zero (`Int` truncated division agrees with the ceiling form
used here on the nonnegative case, and the `toNat` clamp makes the
negative case empty exactly as in Python). -/
def pyRange (start stop step : Int) : List Int :=
  (List.range (((stop - start + step - 1) / step).toNat)).map
    (fun i => start + step * (i : Int))

/-- Lookup of `chrom_lengths[chrom]` in the (unique-keyed) chromosome
length map. -/
def lookupLen (m : List (String × Int)) (c : String) : Int :=
  ((m.lookup c).getD 0)

/-- `getSearchRegions(bam, minLength=0)` from `sample.py`, with the
alignment file abstracted to its chromosome/length map and the stdlib
`random.Random(9535).shuffle` abstracted to a permutation-valued
`shuffle` parameter (the fixed seed makes it a fixed pure function).
Windows of width 10,000 step by 1,000,000 from offset 2,500,000 up to
`length - 2,500,000` per chromosome (chromosomes sorted alphabetically),
the collected windows are shuffled, and then one `(chrom, None, None)`
fallback per chromosome is yielded in alphabetical order. -/
def getSearchRegions (shuffle : List Region → List Region)
    (chrom_lengths : List (String × Int)) (minLength : Int) : List Region :=
  let chromosomes :=
    ((chrom_lengths.filter (fun p => decide (p.2 > minLength))).map Prod.fst)
  let sortedChroms := List.insertionSort (fun a b : String => a ≤ b) chromosomes
  let regions := sortedChroms.flatMap (fun chrom =>
    (pyRange 2500000 (lookupLen chrom_lengths chrom - 2500000) 1000000).map
      (fun start => (chrom, some start, some (start + 10000))))
  shuffle regions ++ sortedChroms.map (fun chrom => (chrom, none, none))

/-! ## Sampling scanner (`sampleInsertSizes`) -/

/-- The per-record fields of a pysam `AlignedSegment` consumed by the
scanner. -/
structure Read where
  is_paired : Bool
  is_read1 : Bool
  is_unmapped : Bool
  mate_is_unmapped : Bool
  is_secondary : Bool
  is_supplementary : Bool
  is_proper_pair : Bool
  mapq : Nat
  tid : Int
  rnext : Int
  isize : Int
  is_reverse : Bool
  mate_is_reverse : Bool
  reference_start : Int
  next_reference_start : Int
  seq_len : Nat
  nm_tag : Option Int
deriving DecidableEq, Repr

/-- The mutable loop state of `sampleInsertSizes`. -/
structure ScanState where
  inserts : List Int
  readLengths : List Nat
  nms : List Int
  count : Nat
  orientations : Tally
  discordant : Nat
  concordant : Nat
  skip : Nat
deriving DecidableEq, Repr

/-- `tally_nm(read)` with `reference=None` (the only call path used by
`ReadStatistics.__init__`): append the `NM` tag value when present. -/
def tallyNm (nms : List Int) (read : Read) : List Int :=
  match read.nm_tag with
  | some v => nms ++ [v]
  | none => nms

/-- Outcome of one iteration of the per-record loop body: continue to the
next record, or break out of the current region's loop. -/
inductive StepRes
| brk (st : ScanState)
| cont (st : ScanState)
deriving DecidableEq, Repr

/-- One iteration of the `for read in bam.fetch(...)` body of
`sampleInsertSizes`: the `skip` warm-up discard, the single-ended
bail-out (`unpaired > 2500 and count < 1000` breaks the region), the
filter chain, the discordant/concordant counters, the `abs(isize)`
insert sample, the position-canonicalized orientation tally, and the
`count > maxreads` break. -/
def scanStep (maxreads minmapq : Nat) (st : ScanState) (read : Read) : StepRes :=
  match st.skip with
  | n + 1 => StepRes.cont { st with skip := n }
  | 0 =>
  if tallyGet st.orientations OKey.unpaired > 2500 ∧ st.count < 1000 then
    StepRes.brk st
  else if ¬ read.is_paired then
    StepRes.cont { st with
      orientations := tallyInc st.orientations OKey.unpaired,
      readLengths := st.readLengths ++ [read.seq_len],
      nms := tallyNm st.nms read }
  else if ¬ read.is_read1 then
    StepRes.cont st
  else if read.is_unmapped ∨ read.mate_is_unmapped then
    StepRes.cont st
  else if read.is_secondary ∨ read.is_supplementary then
    StepRes.cont st
  else if ¬ read.is_proper_pair then
    StepRes.cont { st with discordant := st.discordant + 1 }
  else
    let st1 := { st with concordant := st.concordant + 1 }
    if read.mapq < minmapq then
      StepRes.cont st1
    else if read.tid ≠ read.rnext then
      StepRes.cont st1
    else
      let curOrient :=
        if read.reference_start > read.next_reference_start then
          (! read.is_reverse, ! read.mate_is_reverse)
        else
          (read.is_reverse, read.mate_is_reverse)
      let st2 := { st1 with
        inserts := st1.inserts ++ [|read.isize|],
        orientations := tallyInc st1.orientations (OKey.pair curOrient.1 curOrient.2),
        readLengths := st1.readLengths ++ [read.seq_len],
        nms := tallyNm st1.nms read,
        count := st1.count + 1 }
      if st2.count > maxreads then StepRes.brk st2 else StepRes.cont st2

/-- The inner `for read in bam.fetch(chrom, start, end)` loop over one
region's records. -/
def scanReads (maxreads minmapq : Nat) (st : ScanState) : List Read → ScanState
  | [] => st
  | r :: rest =>
    match scanStep maxreads minmapq st r with
    | StepRes.brk st1 => st1
    | StepRes.cont st1 => scanReads maxreads minmapq st1 rest

/-- The outer `for chrom, start, end in getSearchRegions(bam)` loop:
after each region, `if count >= maxreads: break`.  The alignment file is
abstracted to the list of record lists fetched per region. -/
def scanRegions (maxreads minmapq : Nat) (st : ScanState) : List (List Read) → ScanState
  | [] => st
  | r :: rest =>
    let st1 := scanReads maxreads minmapq st r
    if st1.count ≥ maxreads then st1 else scanRegions maxreads minmapq st1 rest

/-- The loop state at entry of `sampleInsertSizes`. -/
def initState (skip : Nat) : ScanState :=
  { inserts := [], readLengths := [], nms := [], count := 0,
    orientations := [], discordant := 0, concordant := 0, skip := skip }

/-- The loop state after the whole scan of `sampleInsertSizes`. -/
def finalState (regions : List (List Read)) (maxreads skip minmapq : Nat) : ScanState :=
  scanRegions maxreads minmapq (initState skip) regions

/-- The tuple returned by a successful `sampleInsertSizes`. -/
structure SampleResults where
  insertSizes : List ℚ
  orientations : Orients
  readLengths : List Nat
  nms : List Int
  discordant_frac : ℚ
deriving DecidableEq, Repr

/-- `sampleInsertSizes(bam, maxreads=50000, skip=0, minmapq=40)` with
`reference=None`: run the scan, classify the orientation tally (whose
`IndexError`/`KeyError` failures occur before the final `return`), then
build the result tuple whose last component
`discordant/float(discordant+concordant)` raises `ZeroDivisionError` when
both counters are zero. -/
def sampleInsertSizes (regions : List (List Read)) (maxreads skip minmapq : Nat) :
    Except PyErr SampleResults :=
  let st := finalState regions maxreads skip minmapq
  match chooseOrientation st.orientations with
  | Except.error e => Except.error e
  | Except.ok chosen =>
    if st.discordant + st.concordant = 0 then Except.error PyErr.zeroDivisionError
    else
      Except.ok
        { insertSizes := removeOutliers (st.inserts.map (fun i => (Int.cast i : ℚ))) 10,
          orientations := chosen,
          readLengths := st.readLengths,
          nms := st.nms,
          discordant_frac := (st.discordant : ℚ) / ((st.discordant : ℚ) + (st.concordant : ℚ)) }

/-- `ReadStatistics.__init__`: the sample sequences default to empty; the
`try` block either unpacks a successful `sampleInsertSizes` result or, on
any exception, logs and leaves the defaults in place
(`discordant_frac` is then never assigned, modelled as `none`). -/
def mkReadStatistics (r : Except PyErr SampleResults) : ReadStatistics :=
  match r with
  | Except.error _ =>
    { insertSizes := [], readLengths := [], orientations := Orients.labels [],
      number_mismatches := [], discordant_frac := none }
  | Except.ok res =>
    { insertSizes := res.insertSizes, readLengths := res.readLengths,
      orientations := res.orientations, number_mismatches := res.nms,
      discordant_frac := some res.discordant_frac }

/-- `Sample.__init__`'s single-ended test:
`read_statistics.orientations == "any"`. -/
def sampleSingleEnded (s : ReadStatistics) : Bool :=
  decide (s.orientations = Orients.any)

/-! ## Cached insert-size density scorer and pair scorer -/

/-- The mutable cache fields of a `ReadStatistics` instance:
`_insertSizeKDE` (lazily built density model), `_insertSizeScores` (the
score cache keyed by `abs(size)`), plus a ghost log recording every
density-model evaluation (one entry per cache miss), used to state the
"evaluated at most once" property. -/
structure KDEState where
  kde : Option (Int → ℝ)
  scores : List (Int × ℝ)
  evalLog : List Int

/-- `ReadStatistics.scoreInsertSize(isize)`, with the external
`kde.gaussian_kde` constructor abstracted as `mkKDE` (a density model
built from the insert-size sample): return `0` below the sample gate;
lazily build the KDE; look up `abs(isize)` in the score cache; on a miss
evaluate the model once, store and return it. -/
def scoreInsertSize (mkKDE : List ℚ → Int → ℝ) (insertSizes : List ℚ)
    (st : KDEState) (isize : Int) : ℝ × KDEState :=
  if hasInsertSizeDistributionL insertSizes = false then (0, st)
  else
    let k := match st.kde with
      | some f => f
      | none => mkKDE insertSizes
    let st1 : KDEState := { kde := some k, scores := st.scores, evalLog := st.evalLog }
    let key := |isize|
    match st1.scores.lookup key with
    | some v => (v, st1)
    | none =>
      (k key,
       { kde := some k, scores := st1.scores ++ [(key, k key)],
         evalLog := st1.evalLog ++ [key] })

/-- A candidate read pair as consumed by `score_read_pair`: the two
per-read alignment scores, the observed insert size, and the (externally
specified) `pair.concordant(stats)` verdict. -/
structure AlnPair where
  aln1_score : ℝ
  aln2_score : ℝ
  insert_size : Int
  is_concordant : Bool

/-- `ReadStatistics.score_read_pair(pair)`: a flat `-10` penalty for a
pair inconsistent with the inferred model, otherwise
`log10(scoreInsertSize(insert_size)) + aln1.score + aln2.score` (the
insert-size scorer abstracted to its value function `scoreIS`). -/
noncomputable def score_read_pair (scoreIS : Int → ℝ) (p : AlnPair) : ℝ :=
  if ¬ p.is_concordant then p.aln1_score + p.aln2_score + (-10)
  else Real.logb 10 (scoreIS p.insert_size) + p.aln1_score + p.aln2_score

/-! ## Helper lemmas -/

/-- `getD` at an index below the length is a member of the list. -/
theorem getD_mem_q : ∀ (l : List ℚ) (i : Nat) (d : ℚ), i < l.length → l.getD i d ∈ l
  | a :: l, 0, _, _ => List.mem_cons_self a l
  | a :: l, i + 1, d, h =>
    List.mem_cons_of_mem a (getD_mem_q l i d (by simpa using h))

/-- The median of a nonempty list of nonnegative rationals is
nonnegative. -/
theorem median_nonneg {l : List ℚ} (hne : l ≠ []) (h : ∀ x ∈ l, 0 ≤ x) :
    0 ≤ median l := by
  have hperm := List.perm_insertionSort (fun a b : ℚ => a ≤ b) l
  simp only [median]
  set s := List.insertionSort (fun a b : ℚ => a ≤ b) l with hs
  have hlen : s.length = l.length := hperm.length_eq
  have hpos : 0 < l.length := List.length_pos.mpr hne
  have h1 : s.length / 2 < s.length := by omega
  have h2 : (s.length - 1) / 2 < s.length := by omega
  have v1 := h _ (hperm.subset (getD_mem_q s (s.length / 2) 0 h1))
  have v2 := h _ (hperm.subset (getD_mem_q s ((s.length - 1) / 2) 0 h2))
  linarith

/-- The median of a nonempty constant list is that constant. -/
theorem median_const {l : List ℚ} {c : ℚ} (hne : l ≠ []) (h : ∀ x ∈ l, x = c) :
    median l = c := by
  have hperm := List.perm_insertionSort (fun a b : ℚ => a ≤ b) l
  simp only [median]
  set s := List.insertionSort (fun a b : ℚ => a ≤ b) l with hs
  have hlen : s.length = l.length := hperm.length_eq
  have hpos : 0 < l.length := List.length_pos.mpr hne
  have h1 : s.length / 2 < s.length := by omega
  have h2 : (s.length - 1) / 2 < s.length := by omega
  have v1 := h _ (hperm.subset (getD_mem_q s (s.length / 2) 0 h1))
  have v2 := h _ (hperm.subset (getD_mem_q s ((s.length - 1) / 2) 0 h2))
  rw [v1, v2]
  ring

/-- `removeOutliers` in the degenerate `mdev = 0` case keeps every
value. -/
theorem removeOutliers_eq_self_of_mdev0 {data : List ℚ}
    (h2 : ¬ data.length < 2)
    (hmdev : median (data.map (fun x => |x - median data|)) = 0) :
    removeOutliers data 10 = data := by
  simp only [removeOutliers]
  rw [if_neg h2, if_pos hmdev]
  norm_num

/-- `removeOutliers` in the `mdev ≠ 0` case is the elementwise z-score
filter. -/
theorem removeOutliers_eq_filter {data : List ℚ}
    (h2 : ¬ data.length < 2)
    (hmdev : median (data.map (fun x => |x - median data|)) ≠ 0) :
    removeOutliers data 10 = data.filter
      (fun x => decide
        ((x - median data) / median (data.map (fun y => |y - median data|)) < 10)) := by
  simp only [removeOutliers]
  rw [if_neg h2, if_neg hmdev]

/-! ## Claim C1: the insert-size sample gate -/

/-- A `ReadStatistics` aggregate holding `n` copies of the value `q` as
its insert-size sample. -/
def gateStats (n : Nat) (q : ℚ) : ReadStatistics :=
  { insertSizes := List.replicate n q, readLengths := [],
    orientations := Orients.labels [], number_mismatches := [],
    discordant_frac := none }

/-- Claim C1, counterexample: with exactly 1000 insert-size samples —
"at least 1000" per the claim — `hasInsertSizeDistribution()` is `false`
(the code tests `len > 1000`, not `≥ 1000`) and `meanInsertSize()` still
returns the null sentinel, contradicting both halves of the claim. -/
theorem insertSize_gate_cx :
    1000 ≤ (gateStats 1000 5).insertSizes.length
    ∧ hasInsertSizeDistribution (gateStats 1000 5) = false
    ∧ meanInsertSize (gateStats 1000 5) = none := by
  refine ⟨?_, ?_, ?_⟩
  · simp only [gateStats, List.length_replicate]
    norm_num
  · simp only [hasInsertSizeDistribution, hasInsertSizeDistributionL, gateStats,
      List.length_replicate]
    norm_num
  · simp only [meanInsertSize, hasInsertSizeDistribution,
      hasInsertSizeDistributionL, gateStats, List.length_replicate]
    norm_num

/-- Claim C1 (amended): `hasInsertSizeDistribution()` is true iff
strictly more than 1000 samples are present; `meanInsertSize()` returns
the null sentinel with 999 and also with 1000 samples, and returns the
arithmetic mean of the sample with 1001 samples. -/
theorem insertSize_gate_amended (s : ReadStatistics) :
    (hasInsertSizeDistribution s = true ↔ 1000 < s.insertSizes.length)
    ∧ (s.insertSizes.length = 999 → meanInsertSize s = none)
    ∧ (s.insertSizes.length = 1000 → meanInsertSize s = none)
    ∧ (s.insertSizes.length = 1001 →
        meanInsertSize s = some (s.insertSizes.sum / 1001)) := by
  refine ⟨?_, ?_, ?_, ?_⟩
  · simp only [hasInsertSizeDistribution, hasInsertSizeDistributionL, gt_iff_lt]
    by_cases h : 1000 < s.insertSizes.length
    · rw [if_pos h]
      simp [h]
    · rw [if_neg h]
      simp [h]
  · intro h
    simp only [meanInsertSize, hasInsertSizeDistribution,
      hasInsertSizeDistributionL, h]
    norm_num
  · intro h
    simp only [meanInsertSize, hasInsertSizeDistribution,
      hasInsertSizeDistributionL, h]
    norm_num
  · intro h
    simp only [meanInsertSize, hasInsertSizeDistribution,
      hasInsertSizeDistributionL, h]
    norm_num

/-- Claim C1 (amended), witness: at 1001 constant samples of value 3 the
mean is 3. -/
theorem insertSize_gate_amended_witness :
    meanInsertSize (gateStats 1001 3) = some 3 := by
  have h := (insertSize_gate_amended (gateStats 1001 3)).2.2.2
    (by simp only [gateStats, List.length_replicate])
  rw [h]
  simp only [gateStats, List.sum_replicate, nsmul_eq_mul]
  norm_num

/-! ## Claim C4: the outlier trimmer is one-sided -/

/-- Claim C4: for every input of length at least 2 with the default
threshold 10, `removeOutliers` never removes a value less than or equal
to the median; a value is removed only when its signed modified z-score
`(x - median)/mdev` reaches the threshold (which forces `mdev ≠ 0`); and
for an all-equal input (`mdev = 0`) no original value is removed. -/
theorem removeOutliers_one_sided (data : List ℚ) (h2 : 2 ≤ data.length) :
    (∀ x ∈ data, x ≤ median data → x ∈ removeOutliers data 10)
    ∧ ((∀ x ∈ data, ∀ y ∈ data, x = y) → removeOutliers data 10 = data)
    ∧ (∀ x ∈ data, x ∉ removeOutliers data 10 →
        median (data.map (fun y => |y - median data|)) ≠ 0
        ∧ 10 ≤ (x - median data) / median (data.map (fun y => |y - median data|))) := by
  have hne : data ≠ [] := by
    intro h
    rw [h] at h2
    simp at h2
  have hlt : ¬ data.length < 2 := by omega
  have hmapne : data.map (fun y => |y - median data|) ≠ [] := by
    simpa using hne
  have hmdev0 : 0 ≤ median (data.map (fun y => |y - median data|)) := by
    refine median_nonneg hmapne ?_
    intro x hx
    simp only [List.mem_map] at hx
    obtain ⟨y, _, rfl⟩ := hx
    exact abs_nonneg _
  by_cases hmdev : median (data.map (fun y => |y - median data|)) = 0
  · have hres : removeOutliers data 10 = data :=
      removeOutliers_eq_self_of_mdev0 hlt (by simpa using hmdev)
    refine ⟨?_, ?_, ?_⟩
    · intro x hx _
      rw [hres]
      exact hx
    · intro _
      exact hres
    · intro x hx hnot
      rw [hres] at hnot
      exact absurd hx hnot
  · have hpos : 0 < median (data.map (fun y => |y - median data|)) :=
      lt_of_le_of_ne hmdev0 (Ne.symm hmdev)
    have hres := removeOutliers_eq_filter hlt (by simpa using hmdev)
    refine ⟨?_, ?_, ?_⟩
    · intro x hx hle
      rw [hres, List.mem_filter]
      refine ⟨hx, ?_⟩
      simp only [decide_eq_true_eq]
      have hnp : (x - median data) / median (data.map (fun y => |y - median data|)) ≤ 0 :=
        div_nonpos_of_nonpos_of_nonneg (by linarith) (le_of_lt hpos)
      linarith
    · intro hall
      exfalso
      apply hmdev
      obtain ⟨a, rest, rfl⟩ : ∃ a rest, data = a :: rest := by
        cases data with
        | nil => exact absurd rfl hne
        | cons a rest => exact ⟨a, rest, rfl⟩
      have hmed : median (a :: rest) = a :=
        median_const hne (fun x hx => hall x hx a (List.mem_cons_self a rest))
      refine median_const hmapne ?_
      intro x hx
      simp only [List.mem_map] at hx
      obtain ⟨y, hy, rfl⟩ := hx
      have hya : y = a := hall y hy a (List.mem_cons_self a rest)
      rw [hmed, hya]
      simp
    · intro x hx hnot
      rw [hres, List.mem_filter] at hnot
      refine ⟨hmdev, ?_⟩
      by_contra hcon
      push_neg at hcon
      exact hnot ⟨hx, by simp only [decide_eq_true_eq]; exact hcon⟩

/-- Claim C4, witness: on `[1, 2, 3, 100]` the value 1 lies below the
median and is kept by the trimmer. -/
theorem removeOutliers_one_sided_witness :
    (1 : ℚ) ∈ removeOutliers [1, 2, 3, 100] 10 :=
  (removeOutliers_one_sided [1, 2, 3, 100] (by norm_num)).1 1 (by norm_num)
    (by norm_num [median, List.insertionSort, List.orderedInsert])

/-! ## Claim C5: pair scoring -/

/-- Claim C5: a non-concordant pair scores exactly
`aln1.score + aln2.score - 10` independent of insert size (so scores 5
and 3 give exactly `-2`); a concordant pair at an insert size whose
density is `d > 0` scores `log10(d) + aln1.score + aln2.score`. -/
theorem score_read_pair_spec (scoreIS : Int → ℝ) (a1 a2 d : ℝ) (isz : Int)
    (hd : scoreIS isz = d) (hdpos : 0 < d) :
    score_read_pair scoreIS ⟨a1, a2, isz, false⟩ = a1 + a2 - 10
    ∧ score_read_pair scoreIS ⟨5, 3, isz, false⟩ = -2
    ∧ score_read_pair scoreIS ⟨a1, a2, isz, true⟩ = Real.logb 10 d + a1 + a2 := by
  refine ⟨?_, ?_, ?_⟩
  · simp only [score_read_pair]
    norm_num
    ring
  · simp only [score_read_pair]
    norm_num
  · simp only [score_read_pair, hd]
    norm_num

/-- Claim C5, witness: at density 1 a discordant `(5, 3)` pair scores
`-2` and a concordant one scores `log10(1) + 5 + 3`. -/
theorem score_read_pair_spec_witness :
    score_read_pair (fun _ => 1) ⟨5, 3, 300, false⟩ = -2
    ∧ score_read_pair (fun _ => 1) ⟨5, 3, 300, true⟩ = Real.logb 10 1 + 5 + 3 := by
  have h := score_read_pair_spec (fun _ => 1) 5 3 1 300 rfl one_pos
  exact ⟨h.2.1, h.2.2⟩

/-! ## Claim C7: degraded aggregate on a failed sampling pass -/

/-- Claim C7: whatever exception the sampling pass raises, construction
completes and the aggregate keeps the empty default sample sequences, so
every gated query returns its null/zero sentinel (`false`, `None`, and a
density score of `0` with untouched caches). -/
theorem readStatistics_degraded (e : PyErr) :
    (mkReadStatistics (Except.error e)).insertSizes = []
    ∧ (mkReadStatistics (Except.error e)).readLengths = []
    ∧ (mkReadStatistics (Except.error e)).number_mismatches = []
    ∧ (mkReadStatistics (Except.error e)).orientations = Orients.labels []
    ∧ (mkReadStatistics (Except.error e)).discordant_frac = none
    ∧ hasInsertSizeDistribution (mkReadStatistics (Except.error e)) = false
    ∧ meanInsertSize (mkReadStatistics (Except.error e)) = none
    ∧ maxInsertSize (mkReadStatistics (Except.error e)) = none
    ∧ hasReadLengthDistribution (mkReadStatistics (Except.error e)) = false
    ∧ meanReadLength (mkReadStatistics (Except.error e)) = none
    ∧ ∀ (mkKDE : List ℚ → Int → ℝ) (st : KDEState) (isize : Int),
        scoreInsertSize mkKDE (mkReadStatistics (Except.error e)).insertSizes st isize
          = (0, st) := by
  refine ⟨rfl, rfl, rfl, rfl, rfl, rfl, rfl, rfl, rfl, rfl, ?_⟩
  intro mkKDE st isize
  simp [mkReadStatistics, scoreInsertSize, hasInsertSizeDistributionL]

/-! ## Claim C6: region iterator determinism and two-tier ordering -/

/-- Claim C6: for a fixed chromosome-length map the region sequence is
deterministic (the shuffle is the fixed-seed pure function, given here
with its permutation contract), and it splits as all windowed regions
first, then all whole-chromosome fallback regions, with the fallbacks in
alphabetical chromosome order. -/
theorem getSearchRegions_spec (shuffle : List Region → List Region)
    (hs : ∀ l : List Region, (shuffle l).Perm l)
    (m : List (String × Int)) (minLength : Int) :
    getSearchRegions shuffle m minLength = getSearchRegions shuffle m minLength
    ∧ ∃ w f, getSearchRegions shuffle m minLength = w ++ f
      ∧ (∀ r ∈ w, r.2.1.isSome ∧ r.2.2.isSome)
      ∧ (∀ r ∈ f, r.2.1 = none ∧ r.2.2 = none)
      ∧ List.Sorted (fun a b : String => a ≤ b) (f.map Prod.fst) := by
  refine ⟨rfl, ?_⟩
  simp only [getSearchRegions]
  set chromosomes :=
    ((m.filter (fun p => decide (p.2 > minLength))).map Prod.fst) with hchroms
  set sortedChroms :=
    List.insertionSort (fun a b : String => a ≤ b) chromosomes with hsorted
  set windows := sortedChroms.flatMap (fun chrom =>
    (pyRange 2500000 (lookupLen m chrom - 2500000) 1000000).map
      (fun start => (chrom, some start, some (start + 10000)))) with hwin
  refine ⟨shuffle windows, sortedChroms.map (fun chrom => (chrom, none, none)),
    rfl, ?_, ?_, ?_⟩
  · intro r hr
    have hr2 : r ∈ windows := (hs windows).subset hr
    rw [hwin] at hr2
    simp only [List.mem_flatMap, List.mem_map] at hr2
    obtain ⟨chrom, _, start, _, rfl⟩ := hr2
    exact ⟨rfl, rfl⟩
  · intro r hr
    simp only [List.mem_map] at hr
    obtain ⟨chrom, _, rfl⟩ := hr
    exact ⟨rfl, rfl⟩
  · have hmm : (sortedChroms.map (fun chrom => ((chrom, none, none) : Region))).map
        Prod.fst = sortedChroms := by
      rw [List.map_map]
      exact List.map_id sortedChroms
    rw [hmm, hsorted]
    exact List.sorted_insertionSort (fun a b : String => a ≤ b) chromosomes

/-- Claim C6, witness: the identity shuffle (a permutation) on a
one-chromosome map. -/
theorem getSearchRegions_spec_witness :
    getSearchRegions id [("1", 6000000)] 0 = getSearchRegions id [("1", 6000000)] 0
    ∧ ∃ w f, getSearchRegions id [("1", 6000000)] 0 = w ++ f
      ∧ (∀ r ∈ w, r.2.1.isSome ∧ r.2.2.isSome)
      ∧ (∀ r ∈ f, r.2.1 = none ∧ r.2.2 = none)
      ∧ List.Sorted (fun a b : String => a ≤ b) (f.map Prod.fst) :=
  getSearchRegions_spec id (fun l => List.Perm.refl l) [("1", 6000000)] 0

/-! ## Claim C2: the `maxreads` stop condition -/

set_option maxHeartbeats 2000000 in
/-- A step that continues the region loop leaves `count` at or below
`maxreads` (the `count > maxreads` break fires otherwise). -/
theorem scanStep_cont_count (maxreads minmapq : Nat) (st : ScanState) (r : Read)
    (st1 : ScanState) (hle : st.count ≤ maxreads)
    (h : scanStep maxreads minmapq st r = StepRes.cont st1) :
    st1.count ≤ maxreads := by
  simp only [scanStep] at h
  split at h
  case _ n heq =>
    cases h
    exact hle
  case _ heq =>
    by_cases h1 : tallyGet st.orientations OKey.unpaired > 2500 ∧ st.count < 1000
    · rw [if_pos h1] at h
      exact StepRes.noConfusion h
    · rw [if_neg h1] at h
      by_cases h2 : ¬ r.is_paired = true
      · rw [if_pos h2] at h
        cases h
        exact hle
      · rw [if_neg h2] at h
        by_cases h3 : ¬ r.is_read1 = true
        · rw [if_pos h3] at h
          cases h
          exact hle
        · rw [if_neg h3] at h
          by_cases h4 : r.is_unmapped = true ∨ r.mate_is_unmapped = true
          · rw [if_pos h4] at h
            cases h
            exact hle
          · rw [if_neg h4] at h
            by_cases h5 : r.is_secondary = true ∨ r.is_supplementary = true
            · rw [if_pos h5] at h
              cases h
              exact hle
            · rw [if_neg h5] at h
              by_cases h6 : ¬ r.is_proper_pair = true
              · rw [if_pos h6] at h
                cases h
                exact hle
              · rw [if_neg h6] at h
                by_cases h7 : r.mapq < minmapq
                · rw [if_pos h7] at h
                  cases h
                  exact hle
                · rw [if_neg h7] at h
                  by_cases h8 : r.tid ≠ r.rnext
                  · rw [if_pos h8] at h
                    cases h
                    exact hle
                  · rw [if_neg h8] at h
                    by_cases h9 : st.count + 1 > maxreads
                    · rw [if_pos h9] at h
                      exact StepRes.noConfusion h
                    · rw [if_neg h9] at h
                      cases h
                      show st.count + 1 ≤ maxreads
                      omega

set_option maxHeartbeats 2000000 in
/-- A step that breaks the region loop leaves `count ≤ maxreads + 1`. -/
theorem scanStep_brk_count (maxreads minmapq : Nat) (st : ScanState) (r : Read)
    (st1 : ScanState) (hle : st.count ≤ maxreads)
    (h : scanStep maxreads minmapq st r = StepRes.brk st1) :
    st1.count ≤ maxreads + 1 := by
  simp only [scanStep] at h
  split at h
  case _ n heq =>
    exact StepRes.noConfusion h
  case _ heq =>
    by_cases h1 : tallyGet st.orientations OKey.unpaired > 2500 ∧ st.count < 1000
    · rw [if_pos h1] at h
      cases h
      exact Nat.le_succ_of_le hle
    · rw [if_neg h1] at h
      by_cases h2 : ¬ r.is_paired = true
      · rw [if_pos h2] at h
        exact StepRes.noConfusion h
      · rw [if_neg h2] at h
        by_cases h3 : ¬ r.is_read1 = true
        · rw [if_pos h3] at h
          exact StepRes.noConfusion h
        · rw [if_neg h3] at h
          by_cases h4 : r.is_unmapped = true ∨ r.mate_is_unmapped = true
          · rw [if_pos h4] at h
            exact StepRes.noConfusion h
          · rw [if_neg h4] at h
            by_cases h5 : r.is_secondary = true ∨ r.is_supplementary = true
            · rw [if_pos h5] at h
              exact StepRes.noConfusion h
            · rw [if_neg h5] at h
              by_cases h6 : ¬ r.is_proper_pair = true
              · rw [if_pos h6] at h
                exact StepRes.noConfusion h
              · rw [if_neg h6] at h
                by_cases h7 : r.mapq < minmapq
                · rw [if_pos h7] at h
                  exact StepRes.noConfusion h
                · rw [if_neg h7] at h
                  by_cases h8 : r.tid ≠ r.rnext
                  · rw [if_pos h8] at h
                    exact StepRes.noConfusion h
                  · rw [if_neg h8] at h
                    by_cases h9 : st.count + 1 > maxreads
                    · rw [if_pos h9] at h
                      cases h
                      show st.count + 1 ≤ maxreads + 1
                      omega
                    · rw [if_neg h9] at h
                      exact StepRes.noConfusion h

/-- After scanning one region's records from a state with
`count ≤ maxreads`, the counter is at most `maxreads + 1`. -/
theorem scanReads_count (maxreads minmapq : Nat) :
    ∀ (reads : List Read) (st : ScanState), st.count ≤ maxreads →
      (scanReads maxreads minmapq st reads).count ≤ maxreads + 1
  | [], st, h => by
    simpa [scanReads] using Nat.le_succ_of_le h
  | r :: rest, st, h => by
    simp only [scanReads]
    cases hstep : scanStep maxreads minmapq st r with
    | brk st1 => exact scanStep_brk_count maxreads minmapq st r st1 h hstep
    | cont st1 =>
      exact scanReads_count maxreads minmapq rest st1
        (scanStep_cont_count maxreads minmapq st r st1 h hstep)

/-- After the whole region loop from a state with `count ≤ maxreads`, the
counter is at most `maxreads + 1`. -/
theorem scanRegions_count (maxreads minmapq : Nat) :
    ∀ (regions : List (List Read)) (st : ScanState), st.count ≤ maxreads →
      (scanRegions maxreads minmapq st regions).count ≤ maxreads + 1
  | [], st, h => by
    simpa [scanRegions] using Nat.le_succ_of_le h
  | r :: rest, st, h => by
    simp only [scanRegions]
    by_cases hge : (scanReads maxreads minmapq st r).count ≥ maxreads
    · rw [if_pos hge]
      exact scanReads_count maxreads minmapq r st h
    · rw [if_neg hge]
      exact scanRegions_count maxreads minmapq rest _ (by omega)

/-- Claim C2, counterexample: with `maxreads = 1`, a single region
holding two qualifying paired reads yields `count = 2` qualifying reads
counted, each contributing an insert-size sample — more than `maxreads` —
because the in-loop check breaks only when `count` strictly exceeds
`maxreads`. -/
def qRead : Read :=
  { is_paired := true, is_read1 := true, is_unmapped := false,
    mate_is_unmapped := false, is_secondary := false,
    is_supplementary := false, is_proper_pair := true, mapq := 60,
    tid := 0, rnext := 0, isize := 300, is_reverse := false,
    mate_is_reverse := true, reference_start := 100,
    next_reference_start := 500, seq_len := 100, nm_tag := none }

/-- Claim C2, counterexample theorem: the scan with `maxreads = 1` counts
2 qualifying paired reads and collects 2 insert-size samples. -/
theorem scan_count_cx :
    (finalState [[qRead, qRead]] 1 0 40).count = 2
    ∧ (finalState [[qRead, qRead]] 1 0 40).inserts.length = 2 := by
  constructor <;> rfl

/-- Claim C2 (amended): the in-loop check breaks a region only once
`count` strictly exceeds `maxReads` (`count > maxreads`), while the
between-regions check stops at `count ≥ maxreads`; consequently at most
`maxReads + 1` qualifying paired reads are ever counted. -/
theorem scan_count_bound (regions : List (List Read)) (maxreads skip minmapq : Nat) :
    (finalState regions maxreads skip minmapq).count ≤ maxreads + 1 :=
  scanRegions_count maxreads minmapq regions (initState skip) (Nat.zero_le _)

/-! ## Claim C10: empty tally fails classification, aggregate not "any" -/

/-- Scanning regions that yield no records leaves the state untouched. -/
theorem scanRegions_all_empty (maxreads minmapq : Nat) :
    ∀ (regions : List (List Read)) (st : ScanState), (∀ r ∈ regions, r = []) →
      scanRegions maxreads minmapq st regions = st
  | [], _, _ => rfl
  | r :: rest, st, h => by
    have hr : r = [] := h r (List.mem_cons_self r rest)
    subst hr
    simp only [scanRegions, scanReads]
    by_cases hge : st.count ≥ maxreads
    · rw [if_pos hge]
    · rw [if_neg hge]
      exact scanRegions_all_empty maxreads minmapq rest st
        (fun x hx => h x (List.mem_cons_of_mem _ hx))

/-- Claim C10: on an input yielding zero records, `chooseOrientation`
fails with `IndexError` popping an empty ranking, so `sampleInsertSizes`
fails too; via the construction-level catch the aggregate keeps the
empty-list default for `orientations` — not the `"any"` sentinel — so the
owning `Sample` is not marked single-ended. -/
theorem emptyInput_not_single_ended (regions : List (List Read))
    (maxreads skip minmapq : Nat) (h : ∀ r ∈ regions, r = []) :
    chooseOrientation ([] : Tally) = Except.error PyErr.indexError
    ∧ sampleInsertSizes regions maxreads skip minmapq = Except.error PyErr.indexError
    ∧ (mkReadStatistics (sampleInsertSizes regions maxreads skip minmapq)).orientations
        = Orients.labels []
    ∧ sampleSingleEnded (mkReadStatistics (sampleInsertSizes regions maxreads skip minmapq))
        = false := by
  have hfs : finalState regions maxreads skip minmapq = initState skip :=
    scanRegions_all_empty maxreads minmapq regions (initState skip) h
  have hsample : sampleInsertSizes regions maxreads skip minmapq
      = Except.error PyErr.indexError := by
    simp only [sampleInsertSizes, hfs]
    rfl
  refine ⟨rfl, hsample, ?_, ?_⟩ <;> rw [hsample] <;> rfl

/-- Claim C10, witness: two empty regions. -/
theorem emptyInput_not_single_ended_witness :
    sampleInsertSizes [[], []] 50000 0 40 = Except.error PyErr.indexError
    ∧ sampleSingleEnded (mkReadStatistics (sampleInsertSizes [[], []] 50000 0 40))
        = false := by
  have h := emptyInput_not_single_ended [[], []] 50000 0 40 (by decide)
  exact ⟨h.2.1, h.2.2.2⟩

/-! ## Claim C8: the discordant-fraction division -/

/-- `renderAll` can only fail with `KeyError`. -/
theorem renderAll_ne_zde : ∀ l : List OKey,
    renderAll l ≠ Except.error PyErr.zeroDivisionError
  | [] => by
    simp [renderAll]
  | k :: ks => by
    intro hcon
    simp only [renderAll] at hcon
    cases k with
    | unpaired =>
      simp [renderKey] at hcon
    | pair r1 r2 =>
      simp only [renderKey] at hcon
      cases h : renderAll ks with
      | error e =>
        rw [h] at hcon
        simp only [Except.error.injEq] at hcon
        exact renderAll_ne_zde ks (by rw [h, hcon])
      | ok ss =>
        rw [h] at hcon
        simp at hcon

/-- `chooseOrientation` can only fail with `IndexError` or `KeyError`,
never with `ZeroDivisionError`. -/
theorem chooseOrientation_ne_zde (t : Tally) :
    chooseOrientation t ≠ Except.error PyErr.zeroDivisionError := by
  cases hrev : (rankedKeys t).reverse with
  | nil =>
    simp [chooseOrientation, hrev]
  | cons top rest =>
    by_cases htop : top = OKey.unpaired
    · subst htop
      simp [chooseOrientation, hrev]
    · simp only [chooseOrientation, hrev, if_neg htop]
      cases hra : renderAll (top :: chooseLoop t top rest) with
      | error e =>
        intro hcon
        simp only [Except.error.injEq] at hcon
        exact renderAll_ne_zde _ (by rw [hra, hcon])
      | ok ls =>
        simp

/-- Claim C8 (amended): the division is only reached after orientation
classification succeeds.  `ZeroDivisionError` is raised iff
classification succeeded and both counters are zero; whenever at least
one candidate reached the proper-pair test *and* classification
succeeds, the scan returns, without fault, a tuple whose last component
is the exact ratio `discordant / (discordant + concordant)`.  (When
classification fails — e.g. an empty tally because no read was tallied —
the scan fails with that earlier error instead of a division fault.) -/
theorem sampleInsertSizes_division (regions : List (List Read))
    (maxreads skip minmapq : Nat) :
    (sampleInsertSizes regions maxreads skip minmapq
        = Except.error PyErr.zeroDivisionError
      ↔ ((∃ c, chooseOrientation
            (finalState regions maxreads skip minmapq).orientations = Except.ok c)
         ∧ (finalState regions maxreads skip minmapq).discordant
            + (finalState regions maxreads skip minmapq).concordant = 0))
    ∧ (∀ c, chooseOrientation
          (finalState regions maxreads skip minmapq).orientations = Except.ok c →
        (finalState regions maxreads skip minmapq).discordant
          + (finalState regions maxreads skip minmapq).concordant ≠ 0 →
        sampleInsertSizes regions maxreads skip minmapq = Except.ok
          { insertSizes := removeOutliers
              (((finalState regions maxreads skip minmapq).inserts).map
                (fun i => (Int.cast i : ℚ))) 10,
            orientations := c,
            readLengths := (finalState regions maxreads skip minmapq).readLengths,
            nms := (finalState regions maxreads skip minmapq).nms,
            discordant_frac :=
              ((finalState regions maxreads skip minmapq).discordant : ℚ)
                / (((finalState regions maxreads skip minmapq).discordant : ℚ)
                   + ((finalState regions maxreads skip minmapq).concordant : ℚ)) }) := by
  constructor
  · cases hch : chooseOrientation (finalState regions maxreads skip minmapq).orientations with
    | error e =>
      simp only [sampleInsertSizes, hch]
      constructor
      · intro hcon
        simp only [Except.error.injEq] at hcon
        exact absurd (by rw [hch, hcon]) (chooseOrientation_ne_zde _)
      · rintro ⟨⟨c, hc⟩, _⟩
        simp at hc
    | ok c =>
      simp only [sampleInsertSizes, hch]
      by_cases h0 : (finalState regions maxreads skip minmapq).discordant
          + (finalState regions maxreads skip minmapq).concordant = 0
      · rw [if_pos h0]
        constructor
        · intro _
          exact ⟨⟨c, rfl⟩, h0⟩
        · intro _
          rfl
      · rw [if_neg h0]
        constructor
        · intro hcon
          simp at hcon
        · rintro ⟨_, hzero⟩
          exact absurd hzero h0
  · intro c hc hne
    simp only [sampleInsertSizes, hc]
    rw [if_neg hne]

/-- A paired, primary, mapped read-1 that fails the proper-pair flag:
it reaches the proper-pair test (counted discordant) but contributes no
orientation tally. -/
def discRead : Read :=
  { qRead with is_proper_pair := false }

/-- Claim C8, counterexample: a dataset with one discordant candidate
(so at least one candidate reached the proper-pair test, and the claim
asserts the exact ratio `1/1` is returned without fault) instead makes
the scan fail with `IndexError` inside `chooseOrientation`, because the
orientation tally is empty. -/
theorem sampleInsertSizes_division_cx :
    sampleInsertSizes [[discRead]] 50000 0 40 = Except.error PyErr.indexError
    ∧ (finalState [[discRead]] 50000 0 40).discordant
      + (finalState [[discRead]] 50000 0 40).concordant = 1 := by
  constructor <;> rfl

/-- Equality of modelled Python results is decidable. -/
instance : DecidableEq (Except PyErr SampleResults) := fun a b =>
  match a, b with
  | Except.error e1, Except.error e2 =>
    if h : e1 = e2 then isTrue (by rw [h]) else isFalse (fun hc => h (by injection hc))
  | Except.ok r1, Except.ok r2 =>
    if h : r1 = r2 then isTrue (by rw [h]) else isFalse (fun hc => h (by injection hc))
  | Except.error _, Except.ok _ => isFalse (fun hc => Except.noConfusion hc)
  | Except.ok _, Except.error _ => isFalse (fun hc => Except.noConfusion hc)

/-- Claim C8 (amended), witness: one concordant qualifying read gives a
successful classification and the exact ratio `0 / (0 + 1) = 0`. -/
theorem sampleInsertSizes_division_witness :
    sampleInsertSizes [[qRead]] 50000 0 40 = Except.ok
      { insertSizes := [300], orientations := Orients.labels ["+-"],
        readLengths := [100], nms := [], discordant_frac := 0 } := by
  have h := (sampleInsertSizes_division [[qRead]] 50000 0 40).2
    (Orients.labels ["+-"]) (by rfl) (by decide)
  have hd : (finalState [[qRead]] 50000 0 40).discordant = 0 := rfl
  have hc : (finalState [[qRead]] 50000 0 40).concordant = 1 := rfl
  have hi : (finalState [[qRead]] 50000 0 40).inserts = [300] := rfl
  have hr : (finalState [[qRead]] 50000 0 40).readLengths = [100] := rfl
  have hn : (finalState [[qRead]] 50000 0 40).nms = [] := rfl
  rw [h, hd, hc, hi, hr, hn]
  norm_num [removeOutliers]

/-! ## Claim C3: the orientation classifier -/

/-- Rendering succeeds on a list free of the `"unpaired"` key, producing
the `+`/`-` strings. -/
theorem renderAll_ok : ∀ (l : List OKey), (∀ k ∈ l, k ≠ OKey.unpaired) →
    renderAll l = Except.ok (l.map renderStr)
  | [], _ => rfl
  | k :: ks, h => by
    have hk := h k (List.mem_cons_self k ks)
    cases k with
    | unpaired => exact absurd rfl hk
    | pair r1 r2 =>
      simp only [renderAll, renderKey, List.map]
      rw [renderAll_ok ks (fun x hx => h x (List.mem_cons_of_mem _ hx))]
      simp [renderStr]

/-- Rendering a list containing the `"unpaired"` key raises
`KeyError`. -/
theorem renderAll_keyError : ∀ (l : List OKey), OKey.unpaired ∈ l →
    renderAll l = Except.error PyErr.keyError
  | [], h => by simp at h
  | k :: ks, h => by
    cases k with
    | unpaired => rfl
    | pair r1 r2 =>
      have hks : OKey.unpaired ∈ ks := by
        rcases List.mem_cons.mp h with h1 | h1
        · simp at h1
        · exact h1
      simp only [renderAll, renderKey]
      rw [renderAll_keyError ks hks]

/-- The pop loop returns a maximal prefix of the descending ranking in
which each consecutive pair satisfies the strict factor-of-2 test: the
chosen list is `rest.take k`, consecutive chosen counts satisfy
`prev < 2 * candidate`, and the first unchosen candidate (if any) fails
that test against the last chosen key. -/
theorem chooseLoop_take (t : Tally) : ∀ (rest : List OKey) (top : OKey),
    ∃ k, k ≤ rest.length ∧ chooseLoop t top rest = rest.take k
      ∧ List.Chain' (fun a b => tallyGet t a < 2 * tallyGet t b) (top :: rest.take k)
      ∧ (k < rest.length →
          ¬ (tallyGet t ((rest.take k).getLastD top)
              < 2 * tallyGet t (rest.getD k OKey.unpaired)))
  | [], top => by
    refine ⟨0, ?_, ?_, ?_, ?_⟩ <;> simp [chooseLoop]
  | c :: cs, top => by
    by_cases hcond : tallyGet t top < 2 * tallyGet t c
    · obtain ⟨k, hk, heq, hchain, hmax⟩ := chooseLoop_take t cs c
      refine ⟨k + 1, by simpa using Nat.succ_le_succ hk, ?_, ?_, ?_⟩
      · simp only [chooseLoop, if_pos hcond, List.take_succ_cons]
        rw [heq]
      · rw [List.take_succ_cons, List.chain'_cons]
        exact ⟨hcond, hchain⟩
      · intro hlt
        rw [List.take_succ_cons, List.getLastD_cons, List.getD_cons_succ]
        exact hmax (by simpa using hlt)
    · refine ⟨0, Nat.zero_le _, ?_, ?_, ?_⟩
      · simp [chooseLoop, hcond]
      · simp
      · intro _
        simpa using hcond

/-- Claim C3 (amended): the ranking is a stable count-ascending sort of
the tally keys; the classifier returns `"any"` iff the top (last, i.e.
highest-count) key of the ranking is `"unpaired"`; the chosen keys are
the top of the descending ranking followed by the maximal factor-of-2
prefix of the remainder; when `"unpaired"` is not among the later chosen
keys the result is those keys rendered as 2-character strings
(`False → "+"`, `True → "-"`), most dominant first; but when
`"unpaired"` is chosen in a later position, the classifier instead
raises `KeyError`. -/
theorem chooseOrientation_spec (t : Tally) :
    ((rankedKeys t).Perm (t.map Prod.fst))
    ∧ List.Sorted (fun a b => tallyGet t a ≤ tallyGet t b) (rankedKeys t)
    ∧ (chooseOrientation t = Except.ok Orients.any
        ↔ (rankedKeys t).reverse.head? = some OKey.unpaired)
    ∧ (∀ top rest, (rankedKeys t).reverse = top :: rest →
        ∃ k, k ≤ rest.length ∧ chooseLoop t top rest = rest.take k
          ∧ List.Chain' (fun a b => tallyGet t a < 2 * tallyGet t b) (top :: rest.take k)
          ∧ (k < rest.length →
              ¬ (tallyGet t ((rest.take k).getLastD top)
                  < 2 * tallyGet t (rest.getD k OKey.unpaired))))
    ∧ (∀ top rest, (rankedKeys t).reverse = top :: rest → top ≠ OKey.unpaired →
        OKey.unpaired ∉ chooseLoop t top rest →
        chooseOrientation t
          = Except.ok (Orients.labels ((top :: chooseLoop t top rest).map renderStr)))
    ∧ (∀ top rest, (rankedKeys t).reverse = top :: rest → top ≠ OKey.unpaired →
        OKey.unpaired ∈ chooseLoop t top rest →
        chooseOrientation t = Except.error PyErr.keyError) := by
  refine ⟨List.perm_insertionSort _ _, ?_, ?_, ?_, ?_, ?_⟩
  · haveI : IsTotal OKey (fun a b => tallyGet t a ≤ tallyGet t b) :=
      ⟨fun a b => Nat.le_total _ _⟩
    haveI : IsTrans OKey (fun a b => tallyGet t a ≤ tallyGet t b) :=
      ⟨fun _ _ _ h1 h2 => Nat.le_trans h1 h2⟩
    exact List.sorted_insertionSort _ _
  · cases hrev : (rankedKeys t).reverse with
    | nil => simp [chooseOrientation, hrev]
    | cons top rest =>
      by_cases htop : top = OKey.unpaired
      · subst htop
        simp [chooseOrientation, hrev]
      · simp only [chooseOrientation, hrev, if_neg htop]
        cases hra : renderAll (top :: chooseLoop t top rest) with
        | error e =>
          simp only [List.head?_cons, Option.some.injEq]
          constructor
          · intro hcon
            exact absurd hcon (by simp)
          · intro hcon
            exact absurd hcon htop
        | ok ls =>
          simp only [List.head?_cons, Option.some.injEq]
          constructor
          · intro hcon
            exact absurd hcon (by simp)
          · intro hcon
            exact absurd hcon htop
  · intro top rest _
    exact chooseLoop_take t rest top
  · intro top rest hrev htop hnot
    have hall : ∀ k ∈ top :: chooseLoop t top rest, k ≠ OKey.unpaired := by
      intro k hk
      rcases List.mem_cons.mp hk with h1 | h1
      · rw [h1]
        exact htop
      · intro heq
        rw [heq] at h1
        exact hnot h1
    simp only [chooseOrientation, hrev, if_neg htop]
    rw [renderAll_ok _ hall]
  · intro top rest hrev htop hmem
    simp only [chooseOrientation, hrev, if_neg htop]
    rw [renderAll_keyError _ (List.mem_cons_of_mem _ hmem)]

/-- Claim C3, counterexample: on the tally
`{(False, True): 10, "unpaired": 9}` the top key is the boolean pair (not
`"unpaired"`), yet the classifier does not return rendered 2-character
strings: `"unpaired"` is within a factor of 2 of the top key, gets
chosen second, and rendering it raises `KeyError`. -/
theorem chooseOrientation_cx :
    chooseOrientation [(OKey.pair false true, 10), (OKey.unpaired, 9)]
      = Except.error PyErr.keyError
    ∧ (rankedKeys [(OKey.pair false true, 10), (OKey.unpaired, 9)]).reverse.head?
      = some (OKey.pair false true) := by
  constructor <;> rfl

/-- A tally with one dominant orientation, a co-dominant one within the
factor-of-2 band, and a weak `"unpaired"` count. -/
def cTally : Tally :=
  [(OKey.pair false true, 100), (OKey.pair true false, 60), (OKey.unpaired, 10)]

/-- Claim C3 (amended), witness: on `cTally` the classifier returns the
two co-dominant orientations rendered, most dominant first. -/
theorem chooseOrientation_spec_witness :
    chooseOrientation cTally = Except.ok (Orients.labels ["+-", "-+"]) := by
  have h := (chooseOrientation_spec cTally).2.2.2.2.1 (OKey.pair false true)
    [OKey.pair true false, OKey.unpaired] (by rfl) (by decide) (by decide)
  rw [h]
  rfl

/-! ## Claim C9: sign symmetry and memoization of `scoreInsertSize` -/

/-- The density model `scoreInsertSize` uses: the lazily built one when
present, otherwise a fresh build from the sample (the lazy
`_insertSizeKDE` pattern). -/
def kdeOf (mkKDE : List ℚ → Int → ℝ) (insertSizes : List ℚ) :
    Option (Int → ℝ) → Int → ℝ
  | some f => f
  | none => mkKDE insertSizes

/-- Appending a fresh key to an association list makes it found by
`lookup`. -/
theorem lookup_append_self : ∀ (l : List (Int × ℝ)) (a : Int) (b : ℝ),
    l.lookup a = none → (l ++ [(a, b)]).lookup a = some b
  | [], a, b, _ => by
    simp [List.lookup]
  | (k, v) :: l, a, b, h => by
    simp only [List.lookup, List.cons_append] at h ⊢
    cases hab : (a == k) with
    | true =>
      rw [hab] at h
      exact Option.noConfusion h
    | false =>
      rw [hab] at h
      exact lookup_append_self l a b h

/-- `scoreInsertSize` depends on the query only through its absolute
value (the cache key is `abs(isize)`). -/
theorem scoreInsertSize_abs_congr (mkKDE : List ℚ → Int → ℝ) (ins : List ℚ)
    (st : KDEState) {a b : Int} (h : |a| = |b|) :
    scoreInsertSize mkKDE ins st a = scoreInsertSize mkKDE ins st b := by
  simp only [scoreInsertSize, h]

/-- One-step unfolding of `scoreInsertSize` when the sample gate is
met. -/
theorem scoreInsertSize_unfold (mkKDE : List ℚ → Int → ℝ) (ins : List ℚ)
    (kde0 : Option (Int → ℝ)) (scores0 : List (Int × ℝ)) (log0 : List Int)
    (isize : Int) (hg : hasInsertSizeDistributionL ins = true) :
    scoreInsertSize mkKDE ins ⟨kde0, scores0, log0⟩ isize =
      match scores0.lookup |isize| with
      | some v => (v, ⟨some (kdeOf mkKDE ins kde0), scores0, log0⟩)
      | none =>
        (kdeOf mkKDE ins kde0 |isize|,
         ⟨some (kdeOf mkKDE ins kde0),
          scores0 ++ [(|isize|, kdeOf mkKDE ins kde0 |isize|)],
          log0 ++ [|isize|]⟩) := by
  simp only [scoreInsertSize, hg, kdeOf]
  cases kde0 <;> rfl

/-- Claim C9: with the sample gate met, `scoreInsertSize` is
sign-symmetric (the cache key is `abs(size)`, so the calls at `size` and
`-size` agree exactly, state included); a repeat call at the same
magnitude returns the identical cached value and leaves the state — in
particular the density-evaluation log — unchanged; and any single call
adds at most one density-model evaluation. -/
theorem scoreInsertSize_symm_memo (mkKDE : List ℚ → Int → ℝ) (ins : List ℚ)
    (st : KDEState) (isize isize2 : Int)
    (hgate : 1000 < ins.length) (habs : |isize2| = |isize|) :
    scoreInsertSize mkKDE ins st (-isize) = scoreInsertSize mkKDE ins st isize
    ∧ (scoreInsertSize mkKDE ins (scoreInsertSize mkKDE ins st isize).2 isize2).1
        = (scoreInsertSize mkKDE ins st isize).1
    ∧ (scoreInsertSize mkKDE ins (scoreInsertSize mkKDE ins st isize).2 isize2).2
        = (scoreInsertSize mkKDE ins st isize).2
    ∧ (scoreInsertSize mkKDE ins st isize).2.evalLog.length
        ≤ st.evalLog.length + 1 := by
  have hg : hasInsertSizeDistributionL ins = true := by
    simp [hasInsertSizeDistributionL, hgate]
  obtain ⟨kde0, scores0, log0⟩ := st
  refine ⟨scoreInsertSize_abs_congr mkKDE ins _ (abs_neg isize), ?_⟩
  rw [scoreInsertSize_unfold mkKDE ins kde0 scores0 log0 isize hg]
  cases hlook : scores0.lookup |isize| with
  | some v =>
    simp only
    rw [scoreInsertSize_unfold mkKDE ins (some (kdeOf mkKDE ins kde0)) scores0
      log0 isize2 hg, habs, hlook]
    exact ⟨rfl, rfl, by simp⟩
  | none =>
    simp only
    rw [scoreInsertSize_unfold mkKDE ins (some (kdeOf mkKDE ins kde0))
      (scores0 ++ [(|isize|, kdeOf mkKDE ins kde0 |isize|)])
      (log0 ++ [|isize|]) isize2 hg, habs,
      lookup_append_self scores0 |isize| _ hlook]
    exact ⟨rfl, rfl, by simp⟩

/-- Claim C9, witness: calls at `+300` and `-300` from a cold cache over
a 1001-sample distribution. -/
theorem scoreInsertSize_symm_memo_witness :
    scoreInsertSize (fun _ _ => 0) (List.replicate 1001 (300 : ℚ)) ⟨none, [], []⟩ (-300)
      = scoreInsertSize (fun _ _ => 0) (List.replicate 1001 (300 : ℚ)) ⟨none, [], []⟩ 300
    ∧ (scoreInsertSize (fun _ _ => 0) (List.replicate 1001 (300 : ℚ))
        (scoreInsertSize (fun _ _ => 0) (List.replicate 1001 (300 : ℚ))
          ⟨none, [], []⟩ 300).2 (-300)).1
      = (scoreInsertSize (fun _ _ => 0) (List.replicate 1001 (300 : ℚ))
          ⟨none, [], []⟩ 300).1
    ∧ (scoreInsertSize (fun _ _ => 0) (List.replicate 1001 (300 : ℚ))
        (scoreInsertSize (fun _ _ => 0) (List.replicate 1001 (300 : ℚ))
          ⟨none, [], []⟩ 300).2 (-300)).2
      = (scoreInsertSize (fun _ _ => 0) (List.replicate 1001 (300 : ℚ))
          ⟨none, [], []⟩ 300).2
    ∧ (scoreInsertSize (fun _ _ => 0) (List.replicate 1001 (300 : ℚ))
        ⟨none, [], []⟩ 300).2.evalLog.length
      ≤ (KDEState.mk none [] []).evalLog.length + 1 :=
  scoreInsertSize_symm_memo (fun _ _ => 0) (List.replicate 1001 300)
    ⟨none, [], []⟩ 300 (-300)
    (by simp only [List.length_replicate]; norm_num) (by decide)

end Svviz
